import Mathlib

/-!
A shallow embedding of the pysmi filesystem source/sink boundary:
`FileReader` (pysmi/reader/localfile.py) and `PyFileWriter`
(pysmi/writer/pyfile.py).

The filesystem is modelled as a tree of nodes (`Node`): regular files carry
their byte content, an optional modification time (`none` models an
`os.stat` failure) and a flag saying whether opening/reading the file
raises `OSError`/`IOError`; directories carry an optional listing (`none`
models an `os.listdir` failure).  Paths are lists of name segments; the
string form joins the segments with "/" as `os.path.join` does.

The writer side models one destination directory as a finite map from full
path strings to file contents, plus a flag saying whether the directory
exists.  Failure injection points (`tempfile.mkstemp`, `os.write`,
`os.rename`, `os.makedirs`, the `py_compile.compile` validation pass) are
explicit booleans of a `WriterEnv` record.
-/

/-- First-found lookup in an association list, as Python `dict` lookup
(our insert keeps keys unique, so first-found is the dict entry). -/
def dictGet {α : Type} (m : List (String × α)) (k : String) : Option α :=
  match m with
  | [] => none
  | (k0, v0) :: rest => if k0 = k then some v0 else dictGet rest k

/-- Python `dict` assignment `m[k] = v`: replaces the value in place when
the key is present (Python dicts keep the original insertion position),
otherwise appends the new pair. -/
def dictInsert {α : Type} (m : List (String × α)) (k : String) (v : α) :
    List (String × α) :=
  match m with
  | [] => [(k, v)]
  | (k0, v0) :: rest =>
      if k0 = k then (k, v) :: rest else (k0, v0) :: dictInsert rest k v

/-- Remove every pair with the given key (models `os.unlink` on the
writer's path-to-content map). -/
def dictRemove {α : Type} (m : List (String × α)) (k : String) :
    List (String × α) :=
  match m with
  | [] => []
  | (k0, v0) :: rest =>
      if k0 = k then dictRemove rest k else (k0, v0) :: dictRemove rest k

/-- The whitespace characters removed by Python `str.strip()`. -/
def isPySpace (c : Char) : Bool :=
  c = ' ' || c = '\t' || c = '\n' || c = '\r' || c = '\x0b' || c = '\x0c'

/-- Python `str.strip()` on a character list. -/
def pyStrip (s : List Char) : List Char :=
  ((s.dropWhile isPySpace).reverse.dropWhile isPySpace).reverse

/-- Python `line.partition(' ')`, keeping the before/after parts: the split
happens at the first space character (exactly `' '`, not general
whitespace); when no space occurs the whole string is the first part and
the second part is empty. -/
def partitionSpace : List Char → List Char × List Char
  | [] => ([], [])
  | c :: rest =>
      if c = ' ' then ([], rest)
      else
        let kv := partitionSpace rest
        (c :: kv.1, kv.2)

/-- `os.path.join` of already-joined segments, with "/" separators. -/
def joinSegs (p : List String) : String :=
  String.intercalate "/" p

/-- The errors raised by the reader: `error.PySmiError`,
`error.PySmiReaderFileNotModifiedError`, `error.PySmiReaderFileNotFoundError`. -/
inductive PErr where
  | pySmiError (msg : String)
  | readerFileNotModified (msg : String)
  | readerFileNotFound (msg : String)
deriving DecidableEq

/-- `pysmi.mibinfo.MibInfo` as built by `FileReader`: origin locator,
on-disk file name, logical name (alias) and modification time. -/
structure MibInfo where
  path : String
  file : String
  name : String
  mtime : Int
deriving DecidableEq

/-- A filesystem node.  `file data mtime readErr`: a regular file holding
`data` bytes; `mtime = none` means `os.stat` raises `OSError`;
`readErr = true` means `open`/`read` raises `OSError`/`IOError`.
`dir listing`: a directory; `listing = none` means `os.listdir` raises
`OSError`. -/
inductive Node where
  | file (data : List Nat) (mtime : Option Int) (readErr : Bool)
  | dir (listing : Option (List (String × Node)))

/-- Walk a relative path down the tree. -/
def resolve (n : Node) : List String → Option Node
  | [] => some n
  | seg :: rest =>
      match n with
      | Node.dir (some entries) =>
          match dictGet entries seg with
          | some child => resolve child rest
          | none => none
      | _ => none

/-- `os.path.exists` on a path relative to the modelled root. -/
def pathExists (root : Node) (p : List String) : Bool :=
  (resolve root p).isSome

/-- `os.path.isfile` relative to the modelled root. -/
def isFileAt (root : Node) (p : List String) : Bool :=
  match resolve root p with
  | some (Node.file _ _ _) => true
  | _ => false

/-- `os.path.isdir` on a node (a directory with an unreadable listing is
still a directory). -/
def isDirNode : Node → Bool
  | Node.dir _ => true
  | _ => false

/-- Names returned by `os.listdir` on a directory path, in listing order;
`none` when the path is not a listable directory. -/
def listdirAt (root : Node) (p : List String) : Option (List String) :=
  match resolve root p with
  | some (Node.dir (some entries)) => some (entries.map Prod.fst)
  | _ => none

/-- The node reached by a path, for handing a start directory to
`getSubdirs`: a path that does not resolve behaves like a directory whose
listing raises (`os.listdir` raises `OSError` on a missing path too). -/
def nodeAt (fs : Node) (p : List String) : Node :=
  match resolve fs p with
  | some n => n
  | none => Node.dir none

/-- Modelled from the spec: `pysmi.compat.decode` (pysmi/compat.py is not
part of the given sources) tolerantly decodes bytes to text; the claims
here concern the byte content, so decoding is represented as the identity
on the byte sequence. -/
def decodeBytes (b : List Nat) : List Nat := b

mutual

/-- `FileReader.getSubdirs(path, recursive, ignoreErrors)`.  Returns the
path itself when not recursive; otherwise lists the directory (an
`os.listdir` failure returns just `[path]` when errors are ignored and
raises `PySmiError` otherwise) and recurses into each subdirectory found.
NOTE (faithful to the source): the recursive call is
`self.getSubdirs(d, recursive)` — the `ignoreErrors` argument is *not*
passed down and so takes its default value `True` below the top level. -/
def getSubdirs (path : List String) (n : Node) (recursive ignoreErrors : Bool) :
    Except PErr (List (List String)) :=
  if recursive = false then Except.ok [path]
  else
    match n with
    | Node.dir (some entries) =>
        match subdirsChildren path entries recursive with
        | Except.ok rest => Except.ok (path :: rest)
        | Except.error e => Except.error e
    | _ =>
        if ignoreErrors then Except.ok [path]
        else
          Except.error
            (PErr.pySmiError ("directory " ++ joinSegs path ++ " access error"))

/-- The `for d in subdirs` loop of `getSubdirs`: join each listed name to
the path, recurse when it is a directory (with `ignoreErrors` defaulting
to `true`, see `getSubdirs`), and concatenate the results in order. -/
def subdirsChildren (path : List String) (entries : List (String × Node))
    (recursive : Bool) : Except PErr (List (List String)) :=
  match entries with
  | [] => Except.ok []
  | (name, child) :: rest =>
      if isDirNode child then
        match getSubdirs (path ++ [name]) child recursive true with
        | Except.ok sub =>
            match subdirsChildren path rest recursive with
            | Except.ok more => Except.ok (sub ++ more)
            | Except.error e => Except.error e
        | Except.error e => Except.error e
      else subdirsChildren path rest recursive

end

/-- `FileReader.loadIndex` applied to the lines of a readable index file:
`key, _, value = line.partition(' ')`, then
`mibIndex[key.strip()] = value.strip()`, in file order. -/
def loadIndexLines (lines : List String) : List (String × String) :=
  lines.foldl
    (fun m line =>
      let kv := partitionSpace line.toList
      dictInsert m (String.mk (pyStrip kv.1)) (String.mk (pyStrip kv.2)))
    []

/-- The state of the on-disk index file: `none` — the file does not exist
(`os.path.exists` is false); `some none` — it exists but `open` raises
`IOError`; `some (some lines)` — it is readable and `f.readlines()` yields
`lines`. -/
abbrev IndexSource := Option (Option (List String))

/-- `FileReader.loadIndex(indexFile)`: an absent or unreadable index file
yields an empty map, otherwise each line is split by `partition(' ')` and
both halves are stripped. -/
def loadIndex : IndexSource → List (String × String)
  | none => []
  | some none => []
  | some (some lines) => loadIndexLines lines

/-- The lazily-loaded index state of a `FileReader` instance
(`_indexLoaded`, `_mibIndex`; the initial `_mibIndex = None` is modelled
as the empty map, it is never consulted before loading). -/
structure IndexState where
  indexLoaded : Bool
  mibIndex : List (String × String)

/-- A fresh `FileReader` instance's index state. -/
def initIndexState : IndexState := ⟨false, []⟩

/-- `FileReader.getMibVariants(mibname)`: when the index file is in use it
is loaded lazily at most once; a name present in the loaded index returns
exactly the one candidate `(mibname, indexedFileName)`; otherwise the call
falls through to the base class policy `base` (pysmi/reader/base.py is not
part of the given sources, so the fallback is an opaque parameter). -/
def getMibVariants (useIndexFile : Bool) (idxSrc : IndexSource)
    (base : String → List (String × String)) (st : IndexState)
    (mibname : String) : List (String × String) × IndexState :=
  if useIndexFile then
    let st1 := if st.indexLoaded = false then ⟨true, loadIndex idxSrc⟩ else st
    match dictGet st1.mibIndex mibname with
    | some f => ([(mibname, f)], st1)
    | none => (base mibname, st1)
  else (base mibname, st)

/-- The `try` block of `FileReader.getData` for one candidate path `f`
that exists and is a regular file: `os.stat` (an `OSError` propagates to
the handler), `open`/`read` of at most `maxMibSize` bytes (failure
likewise), the hard size-cap check (`raise IOError` when exactly
`maxMibSize` bytes were read), and on success the `MibInfo` plus decoded
data.  `Except.error ()` stands for a raised `OSError`/`IOError`. -/
def tryReadCandidate (root : Node) (f : List String) (mibalias mibfile : String)
    (maxMibSize : Nat) : Except Unit (MibInfo × List Nat) :=
  match resolve root f with
  | some (Node.file data mtimeOpt readErr) =>
      match mtimeOpt with
      | none => Except.error ()
      | some mtime =>
          if readErr then Except.error ()
          else
            let mibData := data.take maxMibSize
            if mibData.length = maxMibSize then Except.error ()
            else
              Except.ok
                (⟨"file://" ++ joinSegs f, mibfile, mibalias, mtime⟩,
                  decodeBytes mibData)
  | _ => Except.error ()

/-- The inner `for mibalias, mibfile in self.getMibVariants(...)` loop of
`FileReader.getData` over one search path: a candidate that does not exist
or is not a regular file is passed over (`none` = fall through to the next
candidate / next path); for an existing regular file the loop terminates
the whole search: success returns the data, a raised `OSError`/`IOError`
raises `PySmiError` when errors are not ignored, and otherwise control
falls out of the `try`/`except` onto the unconditional
`raise error.PySmiReaderFileNotModifiedError(...)` line. -/
def fetchVariants (root : Node) (ignoreErrors : Bool) (path : List String)
    (maxMibSize : Nat) :
    List (String × String) → Option (Except PErr (MibInfo × List Nat))
  | [] => none
  | (mibalias, mibfile) :: rest =>
      let f := path ++ [mibfile]
      if pathExists root f && isFileAt root f then
        match tryReadCandidate root f mibalias mibfile maxMibSize with
        | Except.ok r => some (Except.ok r)
        | Except.error () =>
            if ignoreErrors = false then
              some (Except.error
                (PErr.pySmiError ("file " ++ joinSegs f ++ " access error")))
            else
              some (Except.error
                (PErr.readerFileNotModified
                  ("source MIB " ++ joinSegs f ++ " is older than needed")))
      else fetchVariants root ignoreErrors path maxMibSize rest

/-- The outer `for path in self.getSubdirs(...)` loop of
`FileReader.getData`: try the candidate list under each search path in
order; when every (path, candidate) pair has been passed over, raise
`PySmiReaderFileNotFoundError`. -/
def fetchPaths (root : Node) (ignoreErrors : Bool) (maxMibSize : Nat)
    (mibname : String) (variants : List (String × String)) :
    List (List String) → Except PErr (MibInfo × List Nat)
  | [] =>
      Except.error
        (PErr.readerFileNotFound ("source MIB " ++ mibname ++ " not found"))
  | p :: rest =>
      match fetchVariants root ignoreErrors p maxMibSize variants with
      | some r => r
      | none => fetchPaths root ignoreErrors maxMibSize mibname variants rest

/-- `FileReader.getData(mibname)` over the modelled tree rooted at `root`
whose on-disk path is `basePath`.  The source calls `getMibVariants`
inside the path loop; the call is deterministic once the index is loaded
on the first iteration, so it is hoisted out of the loop here. -/
def getData (root : Node) (basePath : String) (recursive ignoreErrors : Bool)
    (useIndexFile : Bool) (idxSrc : IndexSource)
    (base : String → List (String × String)) (maxMibSize : Nat)
    (mibname : String) : Except PErr (MibInfo × List Nat) :=
  match getSubdirs [basePath] (nodeAt root [basePath]) recursive ignoreErrors with
  | Except.error e => Except.error e
  | Except.ok paths =>
      let variants := (getMibVariants useIndexFile idxSrc base initIndexState mibname).1
      fetchPaths root ignoreErrors maxMibSize mibname variants paths

/-- `os.path.splitext(name)[0]` for a bare file name: the stem is the part
before the last dot, unless every character before that dot is itself a
dot (so ".index" keeps its name whole). -/
def splitextStem (cs : List Char) : List Char :=
  if ('.' ∈ cs) then
    let dotIdx := cs.length - 1 - (cs.reverse.findIdx (fun c => c = '.'))
    if (cs.take dotIdx).any (fun c => c ≠ '.') then cs.take dotIdx else cs
  else cs

/-- The per-file body of `FileReader.dataGenerator` for a regular file at
`path ++ [name]`: `os.stat`, `open`/`read` up to `maxMibSize` bytes, the
same hard size cap as `getData`, and on success one yielded
`(MibInfo, data)` pair whose logical name is the file name with its
extension stripped.  `none` stands for a raised `OSError`/`IOError`. -/
def tryReadGen (root : Node) (path : List String) (name : String)
    (maxMibSize : Nat) : Option (MibInfo × List Nat) :=
  match resolve root (path ++ [name]) with
  | some (Node.file data mtimeOpt readErr) =>
      match mtimeOpt with
      | none => none
      | some mtime =>
          if readErr then none
          else
            let mibData := data.take maxMibSize
            if mibData.length = maxMibSize then none
            else
              some
                (⟨"file://" ++ joinSegs (path ++ [name]), name,
                    String.mk (splitextStem name.toList), mtime⟩,
                  decodeBytes mibData)
  | _ => none

/-- The `for mibfile in os.listdir(path)` loop of
`FileReader.dataGenerator`, which runs inside one `try` block: non-files
are passed over; a raised `OSError`/`IOError` on any file aborts the rest
of this directory's listing (the boolean result records that the handler
fired), keeping the entries already yielded. -/
def genFiles (root : Node) (path : List String) (maxMibSize : Nat) :
    List String → List (MibInfo × List Nat) × Bool
  | [] => ([], false)
  | name :: rest =>
      if isFileAt root (path ++ [name]) then
        match tryReadGen root path name maxMibSize with
        | some entry =>
            let tail := genFiles root path maxMibSize rest
            (entry :: tail.1, tail.2)
        | none => ([], true)
      else genFiles root path maxMibSize rest

/-- One search path of `FileReader.dataGenerator`: `os.listdir` runs
inside the same `try` block as the file loop, so a listing failure is the
handler firing with no entries yielded from this directory. -/
def genDir (root : Node) (path : List String) (maxMibSize : Nat) :
    List (MibInfo × List Nat) × Bool :=
  match listdirAt root path with
  | none => ([], true)
  | some names => genFiles root path maxMibSize names

/-- The outer loop of `FileReader.dataGenerator`: entries are yielded in
path order; when the per-directory handler fired and errors are not
ignored, `PySmiError` is raised after the entries yielded so far (the
source formats the offending file into the message; the message is not
tracked here), otherwise the walk continues with the next path. -/
def genPaths (root : Node) (ignoreErrors : Bool) (maxMibSize : Nat) :
    List (List String) → List (MibInfo × List Nat) × Option PErr
  | [] => ([], none)
  | p :: rest =>
      let d := genDir root p maxMibSize
      if d.2 && ignoreErrors = false then
        (d.1, some (PErr.pySmiError "file access error"))
      else
        let tail := genPaths root ignoreErrors maxMibSize rest
        (d.1 ++ tail.1, tail.2)

/-- `FileReader.dataGenerator()` over the modelled tree: the search paths
come from `getSubdirs` exactly as in `getData`; the result is the list of
yielded `(MibInfo, data)` pairs together with the error that terminated
the generator, if any. -/
def dataGenerator (root : Node) (basePath : String)
    (recursive ignoreErrors : Bool) (maxMibSize : Nat) :
    List (MibInfo × List Nat) × Option PErr :=
  match getSubdirs [basePath] (nodeAt root [basePath]) recursive ignoreErrors with
  | Except.error e => ([], some e)
  | Except.ok paths => genPaths root ignoreErrors maxMibSize paths

/-- `importlib.machinery.SOURCE_SUFFIXES` on CPython: the Python source
suffix list, whose first (and only) registered entry is ".py". -/
def SOURCE_SUFFIXES : List String := [".py"]

/-- The writer error `error.PySmiWriterError`. -/
inductive WriterErr where
  | pySmiWriterError (msg : String)
deriving DecidableEq

/-- Outcome of the `py_compile.compile(pyfile, doraise=True, ...)`
validation pass: success; a raised `SyntaxError` or
`py_compile.PyCompileError` (the recognized, tolerated failure class); or
any other raised exception. -/
inductive CompileOutcome where
  | success
  | expectedFailure
  | otherFailure
deriving DecidableEq

/-- The writer's destination directory: whether it exists, and its files
as a map from full path string to text content. -/
structure WriterFS where
  dirExists : Bool
  files : List (String × String)
deriving DecidableEq

/-- Failure-injection environment for one `PyFileWriter.putData` call:
the unique name `tempfile.mkstemp` would pick, and whether each
filesystem primitive raises. -/
structure WriterEnv where
  tmpName : String
  makedirsFails : Bool
  mkstempFails : Bool
  writeFails : Bool
  renameFails : Bool
  compileOutcome : CompileOutcome
deriving DecidableEq

/-- A fault-free environment with the given fresh temp-file name. -/
def noFaultEnv (t : String) : WriterEnv :=
  ⟨t, false, false, false, false, CompileOutcome.success⟩

/-- `os.path.join(self._path, name)` for the writer's flat destination
directory. -/
def joinP (root name : String) : String := root ++ "/" ++ name

/-- The comment-prepending step of `PyFileWriter.putData`:
`data = '#\n' + ''.join(['# %s\n' % x for x in comments]) + '#\n' + data`
when `comments` is non-empty. -/
def commentBlock (comments : List String) (data : String) : String :=
  if comments.isEmpty then data
  else
    "#\n" ++ String.join (comments.map (fun x => "# " ++ x ++ "\n")) ++ "#\n"
      ++ data

/-- `PyFileWriter.putData(mibname, data, comments, dryRun)` over the
modelled destination directory `st` at path `path`, with `pyCompile` the
class attribute of the same name.  The steps mirror the source: dry-run
short-circuit; `os.makedirs` when the directory does not exist; comment
prepending; `pyfile = os.path.join(path, mibname) + SOURCE_SUFFIXES[0]`;
`tempfile.mkstemp` / `os.write` / `os.rename` with the `except` handler
unlinking a still-existing temp file before raising `PySmiWriterError`;
then the optional `py_compile` validation whose unexpected failures unlink
the final artifact and raise. -/
def putData (path : String) (st : WriterFS) (env : WriterEnv)
    (pyCompile : Bool) (mibname data : String) (comments : List String)
    (dryRun : Bool) : WriterFS × Except WriterErr Unit :=
  if dryRun then (st, Except.ok ())
  else
    let mkdirres : Except WriterErr WriterFS :=
      if st.dirExists then Except.ok st
      else if env.makedirsFails then
        Except.error
          (WriterErr.pySmiWriterError
            ("failure creating destination directory " ++ path))
      else Except.ok ⟨true, st.files⟩
    match mkdirres with
    | Except.error e => (st, Except.error e)
    | Except.ok st1 =>
        let data1 := commentBlock comments data
        let pyfile := joinP path mibname ++ SOURCE_SUFFIXES.headD ""
        let tpath := joinP path env.tmpName
        if env.mkstempFails then
          -- tfile is still None: the handler skips the unlink
          (st1, Except.error
            (WriterErr.pySmiWriterError ("failure writing file " ++ pyfile)))
        else
          let st2 : WriterFS := ⟨st1.dirExists, dictInsert st1.files tpath ""⟩
          if env.writeFails then
            (⟨st2.dirExists, dictRemove st2.files tpath⟩,
              Except.error
                (WriterErr.pySmiWriterError ("failure writing file " ++ pyfile)))
          else
            let st3 : WriterFS := ⟨st2.dirExists, dictInsert st2.files tpath data1⟩
            if env.renameFails then
              (⟨st3.dirExists, dictRemove st3.files tpath⟩,
                Except.error
                  (WriterErr.pySmiWriterError ("failure writing file " ++ pyfile)))
            else
              let st4 : WriterFS :=
                ⟨st3.dirExists, dictInsert (dictRemove st3.files tpath) pyfile data1⟩
              if pyCompile then
                match env.compileOutcome with
                | CompileOutcome.success => (st4, Except.ok ())
                | CompileOutcome.expectedFailure => (st4, Except.ok ())
                | CompileOutcome.otherFailure =>
                    (⟨st4.dirExists, dictRemove st4.files pyfile⟩,
                      Except.error
                        (WriterErr.pySmiWriterError
                          ("failure compiling " ++ pyfile)))
              else (st4, Except.ok ())

/-- `PyFileWriter.getData(filename)`: the source body is `return ""`. -/
def writerGetData (st : WriterFS) (filename : String) : String := ""

/-- The claim's stated parsing rule for an index line (C7 wording): the
first whitespace run is the separator, the first whitespace-delimited
token is the key, and the remainder trimmed of leading and trailing
whitespace is the value. -/
def claimSplitLine (s : List Char) : List Char × List Char :=
  (s.takeWhile (fun c => !(isPySpace c)),
    pyStrip (s.dropWhile (fun c => !(isPySpace c))))

/-- Amended-specification split of an index line: the separator is the
first space character only; the key is everything before it and the value
everything after it (a line with no space is all key, empty value). -/
def specSplitAtSpace (s : List Char) : List Char × List Char :=
  (s.takeWhile (fun c => c != ' '), (s.dropWhile (fun c => c != ' ')).drop 1)

/-- Amended-specification index loading: split each line at its first
space character, strip both halves, and enter them into the map in file
order with later lines overwriting earlier keys. -/
def specLoadIndex (lines : List String) : List (String × String) :=
  lines.foldl
    (fun m line =>
      let kv := specSplitAtSpace line.toList
      dictInsert m (String.mk (pyStrip kv.1)) (String.mk (pyStrip kv.2)))
    []

/-- A (root-path, candidate) pair passes `getData`'s
`os.path.exists(f) and os.path.isfile(f)` gate. -/
def candidateHit (root : Node) (path : List String) (v : String × String) :
    Bool :=
  pathExists root (path ++ [v.2]) && isFileAt root (path ++ [v.2])

/-- A listed name is harmless for `dataGenerator`: either it is not a
regular file (it is passed over) or it is a readable regular file with a
working `os.stat` and fewer than `maxMibSize` bytes. -/
def goodName (root : Node) (path : List String) (maxMibSize : Nat)
    (name : String) : Bool :=
  match resolve root (path ++ [name]) with
  | some (Node.file data mt re) =>
      mt.isSome && !re && decide (data.length < maxMibSize)
  | _ => true

/-- The entry `dataGenerator` yields for one listed name: `some` exactly
for a readable, small-enough regular file, with the logical name derived
by stripping the file name's extension. -/
def entrySpec (root : Node) (path : List String) (maxMibSize : Nat)
    (name : String) : Option (MibInfo × List Nat) :=
  match resolve root (path ++ [name]) with
  | some (Node.file data (some m) false) =>
      if data.length < maxMibSize then
        some
          (⟨"file://" ++ joinSegs (path ++ [name]), name,
              String.mk (splitextStem name.toList), m⟩,
            decodeBytes data)
      else none
  | _ => none

theorem dictGet_dictInsert_self {α : Type} (m : List (String × α)) (k : String)
    (v : α) : dictGet (dictInsert m k v) k = some v := by
  induction m with
  | nil => simp [dictInsert, dictGet]
  | cons p rest ih =>
      obtain ⟨k0, v0⟩ := p
      by_cases h : k0 = k
      · simp [dictInsert, dictGet, h]
      · simp [dictInsert, dictGet, h, ih]

theorem dictGet_dictRemove_self {α : Type} (m : List (String × α)) (k : String) :
    dictGet (dictRemove m k) k = none := by
  induction m with
  | nil => simp [dictRemove, dictGet]
  | cons p rest ih =>
      obtain ⟨k0, v0⟩ := p
      by_cases h : k0 = k
      · simp [dictRemove, h, ih]
      · simp [dictRemove, dictGet, h, ih]

theorem dictInsert_dictInsert_self {α : Type} (m : List (String × α))
    (k : String) (a b : α) :
    dictInsert (dictInsert m k a) k b = dictInsert m k b := by
  induction m with
  | nil => simp [dictInsert]
  | cons p rest ih =>
      obtain ⟨k0, v0⟩ := p
      by_cases h : k0 = k
      · simp [dictInsert, h]
      · simp [dictInsert, h, ih]

theorem dictRemove_dictInsert_of_fresh {α : Type} (m : List (String × α))
    (k : String) (v : α) (hfresh : dictGet m k = none) :
    dictRemove (dictInsert m k v) k = m := by
  induction m with
  | nil => simp [dictInsert, dictRemove]
  | cons p rest ih =>
      obtain ⟨k0, v0⟩ := p
      by_cases h : k0 = k
      · simp [dictGet, h] at hfresh
      · simp [dictGet, h] at hfresh
        simp [dictInsert, dictRemove, h, ih hfresh]

/-- C1 (counterexample): a successful `store("m", "x")` writes "/out/m.py"
with content "x", yet a subsequent `load` returns the empty string — not
the stored text — because `PyFileWriter.getData` is `return ""`
unconditionally.  The claimed round trip through `load` fails. -/
theorem claim_C1_counterexample :
    putData "/out" ⟨false, []⟩ (noFaultEnv "tmpf") true "m" "x" [] false
      = (⟨true, [("/out/m.py", "x")]⟩, Except.ok ()) ∧
    writerGetData ⟨true, [("/out/m.py", "x")]⟩ "m.py" = "" ∧
    ("" : String) ≠ "x" := by
  refine ⟨by rfl, rfl, by decide⟩

/-- C1 (amended): a fault-free `store(name, content, comments,
dryRun=false)` succeeds and leaves the destination file `root/name.py`
holding exactly the stored text, with the prepended comment block when
comments were supplied; `load`, however, always returns an empty result,
for stored and never-stored file names alike. -/
theorem claim_C1_amended (root t name data : String) (st : WriterFS)
    (comments : List String) :
    (putData root st (noFaultEnv t) true name data comments false).2
        = Except.ok () ∧
    dictGet (putData root st (noFaultEnv t) true name data comments false).1.files
        (root ++ "/" ++ name ++ ".py") = some (commentBlock comments data) ∧
    (∀ st' fn, writerGetData st' fn = "") := by
  cases hd : st.dirExists <;>
    simp [putData, noFaultEnv, joinP, SOURCE_SUFFIXES, hd,
      dictGet_dictInsert_self, writerGetData]

/-- C6: with post-write validation (`pyCompile`) enabled, a validation
failure of the recognized expected class (`SyntaxError` /
`py_compile.PyCompileError`) is tolerated — `store` succeeds and the final
artifact stays in place — while any other validation failure deletes the
just-renamed artifact at `root/name.py` and raises a writer error, so no
unvalidated artifact stays visible under the final name. -/
theorem claim_C6 (root t name data : String) (st : WriterFS)
    (comments : List String) :
    ((putData root st ⟨t, false, false, false, false,
          CompileOutcome.expectedFailure⟩ true name data comments false).2
        = Except.ok () ∧
      dictGet (putData root st ⟨t, false, false, false, false,
            CompileOutcome.expectedFailure⟩ true name data comments false).1.files
          (root ++ "/" ++ name ++ ".py") = some (commentBlock comments data)) ∧
    ((putData root st ⟨t, false, false, false, false,
          CompileOutcome.otherFailure⟩ true name data comments false).2
        = Except.error (WriterErr.pySmiWriterError
            ("failure compiling " ++ (root ++ "/" ++ name ++ ".py"))) ∧
      dictGet (putData root st ⟨t, false, false, false, false,
            CompileOutcome.otherFailure⟩ true name data comments false).1.files
          (root ++ "/" ++ name ++ ".py") = none) := by
  cases hd : st.dirExists <;>
    simp [putData, joinP, SOURCE_SUFFIXES, hd,
      dictGet_dictInsert_self, dictGet_dictRemove_self]

/-- C4: whichever of temp-file creation (`tempfile.mkstemp`), writing
(`os.write`) or the rename (`os.rename`) fails, `store` raises a writer
error, the destination directory's files are exactly as before the call —
in particular no temporary file is left behind and a pre-existing artifact
at the final destination path is untouched.  The freshness hypothesis is
`mkstemp`'s guarantee that the temp name it picks does not already exist. -/
theorem claim_C4 (root t name data : String) (st : WriterFS)
    (comments : List String) (co : CompileOutcome)
    (hfresh : dictGet st.files (root ++ "/" ++ t) = none) :
    ((putData root st ⟨t, false, true, false, false, co⟩ true name data
          comments false).1.files = st.files ∧
      (putData root st ⟨t, false, true, false, false, co⟩ true name data
          comments false).2 = Except.error (WriterErr.pySmiWriterError
            ("failure writing file " ++ (root ++ "/" ++ name ++ ".py")))) ∧
    ((putData root st ⟨t, false, false, true, false, co⟩ true name data
          comments false).1.files = st.files ∧
      (putData root st ⟨t, false, false, true, false, co⟩ true name data
          comments false).2 = Except.error (WriterErr.pySmiWriterError
            ("failure writing file " ++ (root ++ "/" ++ name ++ ".py")))) ∧
    ((putData root st ⟨t, false, false, false, true, co⟩ true name data
          comments false).1.files = st.files ∧
      (putData root st ⟨t, false, false, false, true, co⟩ true name data
          comments false).2 = Except.error (WriterErr.pySmiWriterError
            ("failure writing file " ++ (root ++ "/" ++ name ++ ".py")))) := by
  cases hd : st.dirExists <;>
    simp [putData, joinP, SOURCE_SUFFIXES, hd, dictInsert_dictInsert_self,
      dictRemove_dictInsert_of_fresh _ _ _ hfresh]

/-- C4 witness: the theorem applied at a concrete destination holding a
pre-existing artifact. -/
theorem claim_C4_witness :
    dictGet (⟨true, [("/d/m.py", "old")]⟩ : WriterFS).files ("/d" ++ "/" ++ "t1")
        = none ∧
    (putData "/d" ⟨true, [("/d/m.py", "old")]⟩
          ⟨"t1", false, false, false, true, CompileOutcome.success⟩ true "m" "x"
          [] false).1.files = [("/d/m.py", "old")] := by
  refine ⟨by rfl, ?_⟩
  exact (claim_C4 "/d" "t1" "m" "x" ⟨true, [("/d/m.py", "old")]⟩ []
    CompileOutcome.success (by rfl)).2.2.1

/-- C10: a fault-free, non-dry-run `store(name, content)` changes the
destination directory in exactly one way: it enters the final artifact
under `root` joined with `name` followed by the first registered Python
source suffix, which is ".py"; no other name or suffix is touched. -/
theorem claim_C10 (root t name data : String) (st : WriterFS)
    (comments : List String)
    (hfresh : dictGet st.files (root ++ "/" ++ t) = none) :
    (putData root st (noFaultEnv t) true name data comments false).1.files
        = dictInsert st.files (root ++ "/" ++ name ++ ".py")
            (commentBlock comments data) ∧
    SOURCE_SUFFIXES.headD "" = ".py" ∧
    (putData root st (noFaultEnv t) true name data comments false).2
        = Except.ok () := by
  cases hd : st.dirExists <;>
    simp [putData, noFaultEnv, joinP, SOURCE_SUFFIXES, hd,
      dictInsert_dictInsert_self, dictRemove_dictInsert_of_fresh _ _ _ hfresh]

/-- C10 witness: the theorem applied at a concrete destination state. -/
theorem claim_C10_witness :
    dictGet (⟨false, []⟩ : WriterFS).files ("/d" ++ "/" ++ "t1") = none ∧
    (putData "/d" ⟨false, []⟩ (noFaultEnv "t1") true "m" "x" [] false).1.files
      = dictInsert [] ("/d" ++ "/" ++ "m" ++ ".py") (commentBlock [] "x") := by
  refine ⟨by rfl, ?_⟩
  exact (claim_C10 "/d" "t1" "m" "x" ⟨false, []⟩ [] (by rfl)).1

theorem partitionSpace_eq_specSplitAtSpace (s : List Char) :
    partitionSpace s = specSplitAtSpace s := by
  induction s with
  | nil => rfl
  | cons c rest ih =>
      by_cases h : c = ' '
      · simp [partitionSpace, specSplitAtSpace, h, List.takeWhile, List.dropWhile]
      · simp only [partitionSpace, if_neg h]
        rw [ih]
        simp [specSplitAtSpace, List.takeWhile_cons, List.dropWhile_cons, h]

theorem loadIndexLines_eq_specLoadIndex (lines : List String) :
    loadIndexLines lines = specLoadIndex lines := by
  unfold loadIndexLines specLoadIndex
  congr 1
  funext m line
  rw [partitionSpace_eq_specSplitAtSpace]

/-- C7 (counterexample): on the tab-separated index line "A\tB" the code
does not treat the first whitespace run as the separator: since
`line.partition(' ')` splits only at a space character, the whole stripped
line "A\tB" becomes the key with an empty value, and looking up "A" finds
nothing — whereas the claimed rule would yield key "A" and value "B". -/
theorem claim_C7_counterexample :
    loadIndex (some (some ["A\tB\n"])) = [("A\tB", "")] ∧
    dictGet (loadIndex (some (some ["A\tB\n"]))) "A" = none ∧
    claimSplitLine "A\tB\n".toList = ("A".toList, "B".toList) := by
  refine ⟨by rfl, by rfl, by rfl⟩

/-- C7 (amended): index loading parses each line by splitting at the
first *space character* (not at the first whitespace run): the part
before the first space, trimmed of whitespace, is the key and the
remainder, trimmed, is the value (a line with no space maps the whole
trimmed line to the empty value); malformed lines are tolerated by this
best-effort split, and a missing or unreadable index file yields an empty
map rather than an error. -/
theorem claim_C7_amended :
    (∀ lines, loadIndex (some (some lines)) = specLoadIndex lines) ∧
    loadIndex none = [] ∧
    loadIndex (some none) = [] := by
  refine ⟨?_, rfl, rfl⟩
  intro lines
  simpa [loadIndex] using loadIndexLines_eq_specLoadIndex lines

/-- C5: on a fresh Reader with the index file in use, a logical name
present in the loaded index resolves to exactly the one candidate
`(name, indexedFileName)`, for every fallback variant-generation policy
alike; a name absent from the index falls through to the fallback
policy's candidates. -/
theorem claim_C5 (idxSrc : IndexSource) (name file : String) :
    (dictGet (loadIndex idxSrc) name = some file →
      ∀ base base' : String → List (String × String),
        (getMibVariants true idxSrc base initIndexState name).1
            = [(name, file)] ∧
          (getMibVariants true idxSrc base initIndexState name).1
            = (getMibVariants true idxSrc base' initIndexState name).1) ∧
    (dictGet (loadIndex idxSrc) name = none →
      ∀ base : String → List (String × String),
        (getMibVariants true idxSrc base initIndexState name).1 = base name) := by
  constructor
  · intro h base base'
    simp [getMibVariants, initIndexState, h]
  · intro h base
    simp [getMibVariants, initIndexState, h]

/-- C5 witness: a concrete index mapping "FOO-MIB" to "foo.mib" resolves
to exactly that candidate, and an absent name falls through to the base
policy. -/
theorem claim_C5_witness :
    dictGet (loadIndex (some (some ["FOO-MIB foo.mib"]))) "FOO-MIB"
        = some "foo.mib" ∧
    (getMibVariants true (some (some ["FOO-MIB foo.mib"]))
        (fun n => [(n, n)]) initIndexState "FOO-MIB").1
      = [("FOO-MIB", "foo.mib")] ∧
    dictGet (loadIndex (some (some ["FOO-MIB foo.mib"]))) "BAR-MIB" = none ∧
    (getMibVariants true (some (some ["FOO-MIB foo.mib"]))
        (fun n => [(n, n)]) initIndexState "BAR-MIB").1
      = [("BAR-MIB", "BAR-MIB")] := by
  refine ⟨by rfl, ?_, by rfl, ?_⟩
  · exact ((claim_C5 (some (some ["FOO-MIB foo.mib"])) "FOO-MIB" "foo.mib").1
      (by rfl) (fun n => [(n, n)]) (fun n => [(n, n)])).1
  · exact (claim_C5 (some (some ["FOO-MIB foo.mib"])) "BAR-MIB" "").2
      (by rfl) (fun n => [(n, n)])

/-- C8: evaluating `getSubdirs` at the failing input.  The root "r"
contains a subdirectory "sub" whose `os.listdir` raises; with
`ignoreErrors=False` the claim (and the spec) demand the failure be
raised, but the code returns both paths without error, because the
recursive call `self.getSubdirs(d, recursive)` omits `ignoreErrors`,
which therefore reverts to its default `True` below the top level.  The
second conjunct shows the same failure at the top level *is* raised, as
the parameter intends. -/
theorem claim_C8_eval :
    getSubdirs ["r"] (Node.dir (some [("sub", Node.dir none)])) true false
        = Except.ok [["r"], ["r", "sub"]] ∧
    getSubdirs ["r"] (Node.dir none) true false
        = Except.error (PErr.pySmiError "directory r access error") := by
  refine ⟨by rfl, by rfl⟩

theorem fetchVariants_cons (root : Node) (ig : Bool) (path : List String)
    (maxMibSize : Nat) (a f : String) (rest : List (String × String)) :
    fetchVariants root ig path maxMibSize ((a, f) :: rest)
      = if pathExists root (path ++ [f]) && isFileAt root (path ++ [f]) then
          match tryReadCandidate root (path ++ [f]) a f maxMibSize with
          | Except.ok r => some (Except.ok r)
          | Except.error () =>
              if ig = false then
                some (Except.error (PErr.pySmiError
                  ("file " ++ joinSegs (path ++ [f]) ++ " access error")))
              else
                some (Except.error (PErr.readerFileNotModified
                  ("source MIB " ++ joinSegs (path ++ [f])
                    ++ " is older than needed")))
        else fetchVariants root ig path maxMibSize rest := rfl

theorem fetchVariants_eq_none_iff (root : Node) (ig : Bool)
    (path : List String) (maxMibSize : Nat) (vs : List (String × String)) :
    fetchVariants root ig path maxMibSize vs = none
      ↔ ∀ v ∈ vs, candidateHit root path v = false := by
  induction vs with
  | nil => simp [fetchVariants]
  | cons v rest ih =>
      obtain ⟨a, f⟩ := v
      rw [fetchVariants_cons]
      have hch : candidateHit root path (a, f)
          = (pathExists root (path ++ [f]) && isFileAt root (path ++ [f])) := rfl
      cases hb : pathExists root (path ++ [f]) && isFileAt root (path ++ [f]) with
      | false =>
          rw [if_neg (by simp [hb]), ih]
          constructor
          · intro hall v hv
            rcases List.mem_cons.mp hv with h1 | h1
            · rw [h1, hch, hb]
            · exact hall v h1
          · intro hall v hv
            exact hall v (List.mem_cons_of_mem _ hv)
      | true =>
          rw [if_pos (by simp [hb])]
          constructor
          · intro hn
            exfalso
            rcases htr : tryReadCandidate root (path ++ [f]) a f maxMibSize with
              e | r <;> rw [htr] at hn
            · cases e
              by_cases hig : ig = false <;> simp [hig] at hn
            · simp at hn
          · intro hall
            have hcf := hall (a, f) (List.mem_cons_self _ _)
            rw [hch, hb] at hcf
            simp at hcf

theorem fetchVariants_some_shape (root : Node) (path : List String)
    (maxMibSize : Nat) (vs : List (String × String))
    (r : Except PErr (MibInfo × List Nat))
    (hs : fetchVariants root true path maxMibSize vs = some r) :
    (∃ x, r = Except.ok x) ∨
      (∃ msg, r = Except.error (PErr.readerFileNotModified msg)) := by
  induction vs with
  | nil => simp [fetchVariants] at hs
  | cons v rest ih =>
      obtain ⟨a, f⟩ := v
      rw [fetchVariants_cons] at hs
      cases hb : pathExists root (path ++ [f]) && isFileAt root (path ++ [f]) with
      | false =>
          rw [if_neg (by simp [hb])] at hs
          exact ih hs
      | true =>
          rw [if_pos (by simp [hb])] at hs
          rcases htr : tryReadCandidate root (path ++ [f]) a f maxMibSize with
            e | x <;> rw [htr] at hs
          · cases e
            simp at hs
            exact Or.inr ⟨_, hs.symm⟩
          · simp at hs
            exact Or.inl ⟨_, hs.symm⟩

/-- C2 (counterexample): with errors ignored, a read failure on an
existing candidate does not make the search skip to the next candidate:
the root holds "bad.mib" (exists, open fails) and "good.mib" (readable),
yet `getData` aborts with the stale file-not-modified signal instead of
returning the readable second candidate; the second conjunct shows the
skipped candidate alone would have been fetched. -/
theorem claim_C2_counterexample :
    getData (Node.dir (some [("mibs", Node.dir (some
          [("bad.mib", Node.file [1] (some 0) true),
            ("good.mib", Node.file [2] (some 0) false)]))])) "mibs"
        false true false none
        (fun n => [(n, "bad.mib"), (n, "good.mib")]) 100 "M"
      = Except.error (PErr.readerFileNotModified
          "source MIB mibs/bad.mib is older than needed") ∧
    getData (Node.dir (some [("mibs", Node.dir (some
          [("bad.mib", Node.file [1] (some 0) true),
            ("good.mib", Node.file [2] (some 0) false)]))])) "mibs"
        false true false none
        (fun n => [(n, "good.mib")]) 100 "M"
      = Except.ok (⟨"file://mibs/good.mib", "good.mib", "M", 0⟩, [2]) := by
  refine ⟨by rfl, by rfl⟩

/-- C2 (amended): with errors ignored, candidates that do not exist or
are not regular files are passed over and the not-found error is raised
exactly when no (root, candidate) pair passes the existence gate; the
search never surfaces the filesystem-access error; but a filesystem
error while reading an *existing* candidate does not continue the
search — it aborts it at once with the stale (file-not-modified)
signal for that candidate. -/
theorem claim_C2_amended (root : Node) (maxMibSize : Nat) (name : String)
    (variants : List (String × String)) (paths : List (List String)) :
    (fetchPaths root true maxMibSize name variants paths
        = Except.error (PErr.readerFileNotFound
            ("source MIB " ++ name ++ " not found"))
      ↔ ∀ p ∈ paths, ∀ v ∈ variants, candidateHit root p v = false) ∧
    (∀ msg, fetchPaths root true maxMibSize name variants paths
        ≠ Except.error (PErr.pySmiError msg)) ∧
    (∀ (p : List String) (ps : List (List String)) (a f : String)
        (vs : List (String × String)),
      candidateHit root p (a, f) = true →
      tryReadCandidate root (p ++ [f]) a f maxMibSize = Except.error () →
      fetchPaths root true maxMibSize name ((a, f) :: vs) (p :: ps)
        = Except.error (PErr.readerFileNotModified
            ("source MIB " ++ joinSegs (p ++ [f]) ++ " is older than needed"))) := by
  refine ⟨?_, ?_, ?_⟩
  · induction paths with
    | nil => simp [fetchPaths]
    | cons p ps ih =>
        simp only [fetchPaths]
        rcases hv : fetchVariants root true p maxMibSize variants with _ | r
        · simp only []
          constructor
          · intro h1 q hq v hvv
            rcases List.mem_cons.mp hq with h2 | h2
            · subst h2
              exact (fetchVariants_eq_none_iff root true q maxMibSize
                variants).mp hv v hvv
            · exact ih.mp h1 q h2 v hvv
          · intro hall
            exact ih.mpr
              (fun q hq v hvv => hall q (List.mem_cons_of_mem _ hq) v hvv)
        · simp only []
          apply iff_of_false
          · rcases fetchVariants_some_shape root p maxMibSize variants r hv with
              ⟨x, hx⟩ | ⟨msg, hm⟩
            · subst hx
              simp
            · subst hm
              simp
          · intro hall
            have hnone : fetchVariants root true p maxMibSize variants = none :=
              (fetchVariants_eq_none_iff root true p maxMibSize variants).mpr
                (fun v hvv => hall p (List.mem_cons_self _ _) v hvv)
            rw [hnone] at hv
            cases hv
  · induction paths with
    | nil =>
        intro msg
        simp [fetchPaths]
    | cons p ps ih =>
        intro msg
        simp only [fetchPaths]
        rcases hv : fetchVariants root true p maxMibSize variants with _ | r
        · simp only []
          exact ih msg
        · simp only []
          rcases fetchVariants_some_shape root p maxMibSize variants r hv with
            ⟨x, hx⟩ | ⟨m, hm⟩
          · subst hx
            simp
          · subst hm
            simp
  · intro p ps a f vs h1 h2
    have hb : (pathExists root (p ++ [f]) && isFileAt root (p ++ [f])) = true := h1
    simp [fetchPaths, fetchVariants_cons, hb, h2]

/-- C2 witness: the amended theorem's stale-abort conjunct applied at a
concrete tree whose only candidate exists but fails to read. -/
theorem claim_C2_witness :
    candidateHit (Node.dir (some [("mibs", Node.dir (some [("bad.mib", Node.file [1] (some 0) true)]))]))
        ["mibs"] ("M", "bad.mib") = true ∧
    tryReadCandidate (Node.dir (some [("mibs", Node.dir (some [("bad.mib", Node.file [1] (some 0) true)]))]))
        (["mibs"] ++ ["bad.mib"]) "M" "bad.mib" 100 = Except.error () ∧
    fetchPaths (Node.dir (some [("mibs", Node.dir (some [("bad.mib", Node.file [1] (some 0) true)]))]))
        true 100 "M" [("M", "bad.mib")] [["mibs"]]
      = Except.error (PErr.readerFileNotModified
          ("source MIB " ++ joinSegs (["mibs"] ++ ["bad.mib"])
            ++ " is older than needed")) := by
  refine ⟨by rfl, by rfl, ?_⟩
  exact (claim_C2_amended (Node.dir (some [("mibs", Node.dir (some [("bad.mib", Node.file [1] (some 0) true)]))]))
    100 "M" [("M", "bad.mib")] [["mibs"]]).2.2 ["mibs"] [] "M" "bad.mib" []
    (by rfl) (by rfl)

/-- C3: for a candidate file of `data.length` bytes fetched by `getData`
(single root "mibs", single candidate "m.mib", errors ignored): when the
file holds `maxMibSize` bytes or more — in particular exactly
`maxMibSize` — the `fp.read(maxMibSize)` call returns exactly
`maxMibSize` bytes, the size check fires and the candidate is rejected
outright (the raised `IOError` surfaces as the stale signal, not as a
truncated result); when it holds at most `maxMibSize - 1` bytes the fetch
succeeds and the returned content is all of the file's bytes. -/
theorem claim_C3 (data : List Nat) (mt : Int) (maxMibSize : Nat) :
    getData (Node.dir (some [("mibs", Node.dir (some
          [("m.mib", Node.file data (some mt) false)]))])) "mibs"
        false true false none (fun n => [(n, "m.mib")]) maxMibSize "M"
      = if maxMibSize ≤ data.length then
          Except.error (PErr.readerFileNotModified
            "source MIB mibs/m.mib is older than needed")
        else Except.ok (⟨"file://mibs/m.mib", "m.mib", "M", mt⟩, data) := by
  have hlen : (data.take maxMibSize).length = min maxMibSize data.length :=
    List.length_take _ _
  by_cases h : maxMibSize ≤ data.length
  · rw [if_pos h]
    have htk : (data.take maxMibSize).length = maxMibSize := by
      rw [hlen]
      omega
    simp [getData, getSubdirs, getMibVariants, initIndexState, fetchPaths,
      fetchVariants, tryReadCandidate, nodeAt, resolve, pathExists, isFileAt,
      dictGet, joinSegs, htk]
    rfl
  · rw [if_neg h]
    have htk : data.take maxMibSize = data :=
      List.take_of_length_le (by omega)
    have hne : data.length ≠ maxMibSize := by omega
    simp [getData, getSubdirs, getMibVariants, initIndexState, fetchPaths,
      fetchVariants, tryReadCandidate, nodeAt, resolve, pathExists, isFileAt,
      dictGet, joinSegs, decodeBytes, htk, hne]
    rfl

theorem tryReadGen_eq_entrySpec_of_good (root : Node) (path : List String)
    (maxMibSize : Nat) (name : String)
    (hg : goodName root path maxMibSize name = true) :
    tryReadGen root path name maxMibSize = entrySpec root path maxMibSize name := by
  rcases hr : resolve root (path ++ [name]) with _ | node
  · simp [tryReadGen, entrySpec, hr]
  · cases node with
    | dir l => simp [tryReadGen, entrySpec, hr]
    | file dta mt re =>
        simp [goodName, hr] at hg
        rcases mt with _ | m
        · simp at hg
        · rcases hg with ⟨⟨hs, hre⟩, hlt⟩
          subst hre
          have htk : dta.take maxMibSize = dta :=
            List.take_of_length_le (le_of_lt hlt)
          have hne : (dta.take maxMibSize).length ≠ maxMibSize := by
            rw [htk]
            omega
          simp [tryReadGen, entrySpec, hr, hlt, hne, htk]
          omega

theorem goodName_false_elim (root : Node) (path : List String)
    (maxMibSize : Nat) (name : String)
    (hg : goodName root path maxMibSize name = false) :
    isFileAt root (path ++ [name]) = true ∧
      tryReadGen root path name maxMibSize = none := by
  rcases hr : resolve root (path ++ [name]) with _ | node
  · simp [goodName, hr] at hg
  · cases node with
    | dir l => simp [goodName, hr] at hg
    | file dta mt re =>
        refine ⟨by simp [isFileAt, hr], ?_⟩
        rcases mt with _ | m
        · simp [tryReadGen, hr]
        · cases re with
          | true => simp [tryReadGen, hr]
          | false =>
              simp [goodName, hr] at hg
              have htk : (dta.take maxMibSize).length = maxMibSize := by
                rw [List.length_take]
                omega
              simp [tryReadGen, hr, htk]

theorem entrySpec_eq_none_of_not_file (root : Node) (path : List String)
    (maxMibSize : Nat) (name : String)
    (hif : isFileAt root (path ++ [name]) = false) :
    entrySpec root path maxMibSize name = none := by
  rcases hr : resolve root (path ++ [name]) with _ | node
  · simp [entrySpec, hr]
  · cases node with
    | dir l => simp [entrySpec, hr]
    | file dta mt re => simp [isFileAt, hr] at hif

theorem genFiles_of_good (root : Node) (path : List String) (maxMibSize : Nat)
    (names : List String)
    (hall : ∀ n ∈ names, goodName root path maxMibSize n = true) :
    genFiles root path maxMibSize names
      = (names.filterMap (entrySpec root path maxMibSize), false) := by
  induction names with
  | nil => simp [genFiles]
  | cons name rest ih =>
      have hg := hall name (List.mem_cons_self _ _)
      have hrest := ih (fun n hn => hall n (List.mem_cons_of_mem _ hn))
      cases hif : isFileAt root (path ++ [name]) with
      | false =>
          simp [genFiles, hif, hrest, List.filterMap_cons,
            entrySpec_eq_none_of_not_file root path maxMibSize name hif]
      | true =>
          have htr := tryReadGen_eq_entrySpec_of_good root path maxMibSize name hg
          rcases he : entrySpec root path maxMibSize name with _ | entry
          · rw [he] at htr
            rcases hr : resolve root (path ++ [name]) with _ | node
            · simp [isFileAt, hr] at hif
            · cases node with
              | dir l => simp [isFileAt, hr] at hif
              | file dta mt re =>
                  simp [goodName, hr] at hg
                  rcases mt with _ | m
                  · simp at hg
                  · rcases hg with ⟨⟨hs, hre⟩, hlt⟩
                    subst hre
                    simp [entrySpec, hr, hlt] at he
          · rw [he] at htr
            simp [genFiles, hif, htr, hrest, List.filterMap_cons, he]

theorem genFiles_break (root : Node) (path : List String) (maxMibSize : Nat)
    (good : List String) (bad : String) (rest : List String)
    (hall : ∀ n ∈ good, goodName root path maxMibSize n = true)
    (hbad : goodName root path maxMibSize bad = false) :
    genFiles root path maxMibSize (good ++ bad :: rest)
      = (good.filterMap (entrySpec root path maxMibSize), true) := by
  induction good with
  | nil =>
      obtain ⟨hif, htr⟩ := goodName_false_elim root path maxMibSize bad hbad
      simp [genFiles, hif, htr]
  | cons name good' ih =>
      have hg := hall name (List.mem_cons_self _ _)
      have hrest := ih (fun n hn => hall n (List.mem_cons_of_mem _ hn))
      cases hif : isFileAt root (path ++ [name]) with
      | false =>
          simp only [List.cons_append, genFiles, hif, Bool.false_eq_true,
            if_neg, not_false_eq_true]
          simp [hrest, List.filterMap_cons,
            entrySpec_eq_none_of_not_file root path maxMibSize name hif]
      | true =>
          have htr := tryReadGen_eq_entrySpec_of_good root path maxMibSize name hg
          rcases he : entrySpec root path maxMibSize name with _ | entry
          · rw [he] at htr
            rcases hr : resolve root (path ++ [name]) with _ | node
            · simp [isFileAt, hr] at hif
            · cases node with
              | dir l => simp [isFileAt, hr] at hif
              | file dta mt re =>
                  simp [goodName, hr] at hg
                  rcases mt with _ | m
                  · simp at hg
                  · rcases hg with ⟨⟨hs, hre⟩, hlt⟩
                    subst hre
                    simp [entrySpec, hr, hlt] at he
          · rw [he] at htr
            simp [genFiles, hif, htr, hrest, List.filterMap_cons, he]

/-- C9 (counterexample): over a directory listing ".index" (readable),
"a.txt" (open fails) and "b.txt" (readable), with errors ignored, the
enumeration yields exactly one entry and it is for the index file: the
index file is *not* excluded (its name survives whole, extension-stripping
leaves a leading-dot name intact), and the read failure on "a.txt" does
not merely skip that file — it abandons the rest of the directory, so the
readable "b.txt" yields no entry, contrary to the claim. -/
theorem claim_C9_counterexample :
    dataGenerator (Node.dir (some [("r", Node.dir (some
          [(".index", Node.file [65] (some 0) false),
            ("a.txt", Node.file [66] (some 0) true),
            ("b.txt", Node.file [67] (some 0) false)]))])) "r" false true 100
      = ([(⟨"file://r/.index", ".index", ".index", 0⟩, [65])], none) := by
  rfl

/-- C9 (amended): for each search root, when every directly listed name
is harmless (not a regular file, or a readable regular file under the
size cap), the enumeration yields exactly one entry per regular file in
listing order — the index file included, not excluded — with the logical
name equal to the file's base name with its extension stripped; a read
failure on one file, with errors ignored, abandons the remainder of that
directory's listing (keeping the entries already yielded) rather than
skipping just that file, and the walk continues with the next search
root. -/
theorem claim_C9_amended (root : Node) (path : List String) (maxMibSize : Nat) :
    (∀ names, (∀ n ∈ names, goodName root path maxMibSize n = true) →
      genFiles root path maxMibSize names
        = (names.filterMap (entrySpec root path maxMibSize), false)) ∧
    (∀ good bad rest, (∀ n ∈ good, goodName root path maxMibSize n = true) →
      goodName root path maxMibSize bad = false →
      genFiles root path maxMibSize (good ++ bad :: rest)
        = (good.filterMap (entrySpec root path maxMibSize), true)) ∧
    (∀ p ps, genPaths root true maxMibSize (p :: ps)
        = ((genDir root p maxMibSize).1 ++ (genPaths root true maxMibSize ps).1,
            (genPaths root true maxMibSize ps).2)) := by
  refine ⟨?_, ?_, ?_⟩
  · intro names hall
    exact genFiles_of_good root path maxMibSize names hall
  · intro good bad rest hall hbad
    exact genFiles_break root path maxMibSize good bad rest hall hbad
  · intro p ps
    simp [genPaths]

/-- C9 witness: the amended theorem applied at a concrete directory:
"x.txt" readable yields its entry; prefixing the failing "a.txt" then
abandons the readable "b.txt". -/
theorem claim_C9_witness :
    (∀ n ∈ ["x.txt"], goodName (Node.dir (some [("r", Node.dir (some
          [("x.txt", Node.file [7] (some 0) false),
            ("a.txt", Node.file [8] (some 0) true),
            ("b.txt", Node.file [9] (some 0) false)]))])) ["r"] 100 n
        = true) ∧
    genFiles (Node.dir (some [("r", Node.dir (some
          [("x.txt", Node.file [7] (some 0) false),
            ("a.txt", Node.file [8] (some 0) true),
            ("b.txt", Node.file [9] (some 0) false)]))])) ["r"] 100 ["x.txt"]
      = ([(⟨"file://r/x.txt", "x.txt", "x", 0⟩, [7])], false) ∧
    goodName (Node.dir (some [("r", Node.dir (some
          [("x.txt", Node.file [7] (some 0) false),
            ("a.txt", Node.file [8] (some 0) true),
            ("b.txt", Node.file [9] (some 0) false)]))])) ["r"] 100 "a.txt"
      = false ∧
    genFiles (Node.dir (some [("r", Node.dir (some
          [("x.txt", Node.file [7] (some 0) false),
            ("a.txt", Node.file [8] (some 0) true),
            ("b.txt", Node.file [9] (some 0) false)]))])) ["r"] 100
        (["x.txt"] ++ "a.txt" :: ["b.txt"])
      = ([(⟨"file://r/x.txt", "x.txt", "x", 0⟩, [7])], true) := by
  refine ⟨by decide, ?_, by rfl, ?_⟩
  · exact (claim_C9_amended (Node.dir (some [("r", Node.dir (some
      [("x.txt", Node.file [7] (some 0) false),
        ("a.txt", Node.file [8] (some 0) true),
        ("b.txt", Node.file [9] (some 0) false)]))])) ["r"] 100).1
      ["x.txt"] (by decide)
  · exact (claim_C9_amended (Node.dir (some [("r", Node.dir (some
      [("x.txt", Node.file [7] (some 0) false),
        ("a.txt", Node.file [8] (some 0) true),
        ("b.txt", Node.file [9] (some 0) false)]))])) ["r"] 100).2.1
      ["x.txt"] "a.txt" ["b.txt"] (by decide) (by rfl)
